import Mathlib

/-!
Verification development for the GRAND-HOD galaxy-catalog generator
(`gen_gal_catalog_rockstar_modified_subsampled_numba.py`).

The Python kernels are shallowly embedded over `ℚ` (exact rationals stand in
for IEEE doubles).  The transcendental library primitives (`erf`, `erfc`,
`exp`, `log`, `log10`, `sqrt`, fractional powers) that the kernels call are
collected in a record `MathPrims`, so every kernel is a computable function
of the primitive record; structural properties are proved for all primitive
records, and concrete evaluations instantiate the record explicitly.
-/

namespace GRANDHOD

/-- Record of the floating-point math-library primitives used by the HOD
kernels (`math.erf`, `math.erfc`, `np.exp`, `np.log`, `np.log10`,
`np.sqrt`, and the float power `x ** y`). -/
structure MathPrims where
  erf : ℚ → ℚ
  erfc : ℚ → ℚ
  exp : ℚ → ℚ
  ln : ℚ → ℚ
  log10 : ℚ → ℚ
  sqrt : ℚ → ℚ
  rpow : ℚ → ℚ → ℚ

/-- Source `n_sat_LRG_modified(M_h, logM_cut, M_cut, M_1, sigma, alpha, kappa)`:
`((M_h - kappa*M_cut)/M_1)**alpha*0.5*math.erfc((logM_cut - np.log10(M_h))/(1.41421356*sigma))`. -/
def n_sat_LRG_modified (P : MathPrims) (M_h logM_cut M_cut M_1 sigma alpha kappa : ℚ) : ℚ :=
  P.rpow ((M_h - kappa * M_cut) / M_1) alpha * 0.5 *
    P.erfc ((logM_cut - P.log10 M_h) / (1.41421356 * sigma))

/-- Source `n_cen_LRG(M_h, logM_cut, sigma)`:
`0.5*math.erfc((logM_cut - np.log10(M_h))/(1.41421356*sigma))`. -/
def n_cen_LRG (P : MathPrims) (M_h logM_cut sigma : ℚ) : ℚ :=
  0.5 * P.erfc ((logM_cut - P.log10 M_h) / (1.41421356 * sigma))

/-- Source `N_sat_generic(M_h, M_cut, kappa, M_1, alpha, A_s)`:
`A_s*((M_h-kappa*M_cut)/M_1)**alpha`. -/
def N_sat_generic (P : MathPrims) (M_h M_cut kappa M_1 alpha A_s : ℚ) : ℚ :=
  A_s * P.rpow ((M_h - kappa * M_cut) / M_1) alpha

/-- Source `Gaussian_fun(x, mean, sigma)`:
`0.3989422804014327/sigma*np.exp(-(x - mean)**2/2/sigma**2)`. -/
def Gaussian_fun (P : MathPrims) (x mean sigma : ℚ) : ℚ :=
  0.3989422804014327 / sigma * P.exp (-(x - mean) ^ 2 / 2 / sigma ^ 2)

/-- Source `phi_fun(logM_h, logM_cut, sigma)`: a Gaussian kernel. -/
def phi_fun (P : MathPrims) (logM_h logM_cut sigma : ℚ) : ℚ :=
  Gaussian_fun P logM_h logM_cut sigma

/-- Source `Phi_fun(logM_h, logM_cut, sigma, gamma)`:
`0.5*(1 + math.erf(gamma*(logM_h-logM_cut)/sigma/np.sqrt(2)))`. -/
def Phi_fun (P : MathPrims) (logM_h logM_cut sigma gamma : ℚ) : ℚ :=
  0.5 * (1 + P.erf (gamma * (logM_h - logM_cut) / sigma / P.sqrt 2))

/-- Source `A_fun(p_max, Q, phi, Phi)`: `p_max - 1./Q` (the `phi`, `Phi` arguments
are accepted and ignored, exactly as in the source). -/
def A_fun (p_max Q phi Phi : ℚ) : ℚ := p_max - 1 / Q

/-- Source `N_cen_ELG_v1(M_h, p_max, Q, logM_cut, sigma, gamma)`.  Note the source
sets `logM_h = np.log(M_h)` — the natural logarithm primitive. -/
def N_cen_ELG_v1 (P : MathPrims) (M_h p_max Q logM_cut sigma gamma : ℚ) : ℚ :=
  let logM_h := P.ln M_h
  let phi := phi_fun P logM_h logM_cut sigma
  let Phi := Phi_fun P logM_h logM_cut sigma gamma
  let A := A_fun p_max Q phi Phi
  2 * A * phi * Phi + 0.5 / Q * (1 + P.erf ((logM_h - logM_cut) * 100))

/-- Source `N_cen_ELG_v2(M_h, p_max, logM_cut, sigma, gamma)`. -/
def N_cen_ELG_v2 (P : MathPrims) (M_h p_max logM_cut sigma gamma : ℚ) : ℚ :=
  let logM_h := P.log10 M_h
  if logM_h ≤ logM_cut then p_max * Gaussian_fun P logM_h logM_cut sigma
  else p_max * P.rpow (M_h / P.rpow 10 logM_cut) gamma / (2.5066283 * sigma)

/-- Source `N_cen_QSO(M_h, p_max, logM_cut, sigma)`:
`0.5*p_max*(1 + math.erf((np.log10(M_h)-logM_cut)/1.41421356/sigma))`. -/
def N_cen_QSO (P : MathPrims) (M_h p_max logM_cut sigma : ℚ) : ℚ :=
  0.5 * p_max * (1 + P.erf ((P.log10 M_h - logM_cut) / 1.41421356 / sigma))

/-- Source `wrap(x, L)`: single-branch periodic wrap,
`L2 = L/2; if x >= L2: x - L; elif x < -L2: x + L; else x`. -/
def wrap {α : Type} [LinearOrderedField α] (x L : α) : α :=
  let L2 := L / 2
  if L2 ≤ x then x - L
  else if x < -L2 then x + L
  else x

/-- The tracer-classification chain of the classify pass
(`gen_cent` and `gen_sats`): the single draw is compared with the
cumulative markers in order; `1` = LRG, `2` = ELG, `3` = QSO, `0` = none. -/
def classifyKeep (draw LRG_marker ELG_marker QSO_marker : ℚ) : ℕ :=
  if draw ≤ LRG_marker then 1
  else if draw ≤ ELG_marker then 2
  else if draw ≤ QSO_marker then 3
  else 0

/-- IEEE-double value for comparison semantics: either NaN or a finite
value (embedded as a rational). -/
inductive FP where
  | nan : FP
  | val : ℚ → FP
deriving DecidableEq

/-- IEEE `<=` on doubles: any comparison with NaN is false. -/
def FP.fle : FP → FP → Bool
  | FP.val a, FP.val b => decide (a ≤ b)
  | _, _ => false

/-- The classify-pass chain with IEEE comparison semantics, for markers
that may be NaN (e.g. from a fractional power of a negative base). -/
def classifyKeepFP (draw LRG_marker ELG_marker QSO_marker : FP) : ℕ :=
  if FP.fle draw LRG_marker then 1
  else if FP.fle draw ELG_marker then 2
  else if FP.fle draw QSO_marker then 3
  else 0

/-- Source `np.rint`: round to nearest integer, halfway cases to even. -/
def rint (q : ℚ) : ℤ :=
  if q - (⌊q⌋ : ℚ) < 1 / 2 then ⌊q⌋
  else if 1 / 2 < q - (⌊q⌋ : ℚ) then ⌊q⌋ + 1
  else if ⌊q⌋ % 2 = 0 then ⌊q⌋ else ⌊q⌋ + 1

/-- Source `np.rint(np.linspace(0, H, Nthread + 1))[i]`: the starting index of
thread `i` when `H` objects are split over `T` threads. -/
def hstartN (H T i : ℕ) : ℕ :=
  (rint ((i : ℚ) * (H : ℚ) / (T : ℚ))).toNat

/-- The index range `[hstart[tid], hstart[tid+1])` scanned by thread `tid`. -/
def threadRange (H T tid : ℕ) : List ℕ :=
  List.range' (hstartN H T tid) (hstartN H T (tid + 1) - hstartN H T tid)

/-- Source `Nout[tid, t-1, 0]`: the number of objects of thread `tid` classified
to tracer `t` during the classify pass. -/
def threadCount (H T : ℕ) (keep : ℕ → ℕ) (tid t : ℕ) : ℕ :=
  (threadRange H T tid).countP (fun i => keep i == t)

/-- Source `gstart[tid, t-1]`: exclusive cumulative sum of the per-thread counts,
the first output slot reserved for thread `tid` in tracer `t`'s buffers. -/
def gstartOf (H T : ℕ) (keep : ℕ → ℕ) (tid t : ℕ) : ℕ :=
  ((List.range tid).map (fun k => threadCount H T keep k t)).sum

/-- Source `gstart[-1, t-1]`: the total number of objects kept for tracer `t`,
which sizes that tracer's output buffers. -/
def totalCount (H T : ℕ) (keep : ℕ → ℕ) (t : ℕ) : ℕ :=
  gstartOf H T keep T t

/-- Write the elements of `ws` into `buf` at consecutive positions
starting at `j` (out-of-range writes are dropped, as `List.set` does). -/
def writeList {α : Type} : List α → ℕ → List α → List α
  | buf, _, [] => buf
  | buf, j, w :: ws => writeList (buf.set j w) (j + 1) ws

/-- One thread's fill-pass scan: walk the thread's index range, and for
each object classified to tracer `t` write `val i` at the thread's local
cursor and advance the cursor. -/
def fillScan {α : Type} (keep : ℕ → ℕ) (t : ℕ) (val : ℕ → α) :
    List ℕ → List α × ℕ → List α × ℕ
  | [], s => s
  | i :: is, s =>
      if keep i == t then fillScan keep t val is (s.1.set s.2 (val i), s.2 + 1)
      else fillScan keep t val is s

/-- One output column of the fill pass: a buffer of `allocLen` slots
(`np.empty`, modelled with `0` junk) into which every thread writes its
tracer-`t` objects starting at its reserved offset `gstart[tid]`. -/
def fillCol (H T : ℕ) (keep : ℕ → ℕ) (t : ℕ) (val : ℕ → ℚ) (allocLen : ℕ) : List ℚ :=
  (List.range T).foldl
    (fun buf tid => (fillScan keep t val (threadRange H T tid) (buf, gstartOf H T keep tid t)).1)
    (List.replicate allocLen 0)

/-- One halo record: the per-index slice of the input arrays of `gen_cent`
(`pos`, `vel`, `mass`, `ids`, `multis`, `randoms`, `vdev`, `deltac`, `fenv`). -/
structure Halo where
  px : ℚ
  py : ℚ
  pz : ℚ
  vx : ℚ
  vy : ℚ
  vz : ℚ
  mass : ℚ
  hid : ℚ
  multis : ℚ
  randoms : ℚ
  vdev : ℚ
  deltac : ℚ
  fenv : ℚ

/-- One particle record: the per-index slice of the input arrays of
`gen_sats` (`ppos`, `pvel`, `hvel`, `hmass`, `hid`, `weights`, `randoms`,
`hdeltac`, `hfenv`, `ranks`, `ranksv`, `ranksp`, `ranksr`). -/
structure Particle where
  px : ℚ
  py : ℚ
  pz : ℚ
  pvx : ℚ
  pvy : ℚ
  pvz : ℚ
  hvx : ℚ
  hvy : ℚ
  hvz : ℚ
  hmass : ℚ
  hid : ℚ
  weights : ℚ
  randoms : ℚ
  hdeltac : ℚ
  hfenv : ℚ
  ranks : ℚ
  ranksv : ℚ
  ranksp : ℚ
  ranksr : ℚ

/-- One tracer's output dictionary: the 8 columns
`x, y, z, vx, vy, vz, mass, id`. -/
structure GalDict where
  x : List ℚ
  y : List ℚ
  z : List ℚ
  vx : List ℚ
  vy : List ℚ
  vz : List ℚ
  mass : List ℚ
  id : List ℚ
deriving DecidableEq

/-- The cumulative tracer markers computed for one halo in `gen_cent`'s
classify pass: `LRG_marker`, `ELG_marker`, `QSO_marker`.  The design
vectors are unpacked positionally exactly as in the source
(`LRG_design_array[0]` = `logM_cut_L`, …). -/
def gen_cent_markers (P : MathPrims)
    (LRG_design_array ELG_design_array QSO_design_array : List ℚ)
    (ic Ac Bc : ℚ) (want_LRG want_ELG want_QSO : Bool) (h : Halo) : ℚ × ℚ × ℚ :=
  let logM_cut_L := LRG_design_array.getD 0 0
  let sigma_L := LRG_design_array.getD 2 0
  let pmax_E := ELG_design_array.getD 0 0
  let Q_E := ELG_design_array.getD 1 0
  let logM_cut_E := ELG_design_array.getD 2 0
  let sigma_E := ELG_design_array.getD 4 0
  let gamma_E := ELG_design_array.getD 7 0
  let pmax_Q := QSO_design_array.getD 0 0
  let logM_cut_Q := QSO_design_array.getD 1 0
  let sigma_Q := QSO_design_array.getD 3 0
  let LRG_marker : ℚ :=
    if want_LRG then
      n_cen_LRG P h.mass (logM_cut_L + Ac * h.deltac + Bc * h.fenv) sigma_L * ic * h.multis
    else 0
  let ELG_marker : ℚ :=
    LRG_marker +
      (if want_ELG then
        N_cen_ELG_v1 P h.mass pmax_E Q_E logM_cut_E sigma_E gamma_E * h.multis
      else 0)
  let QSO_marker : ℚ :=
    ELG_marker + (if want_QSO then N_cen_QSO P h.mass pmax_Q logM_cut_Q sigma_Q else 0)
  (LRG_marker, ELG_marker, QSO_marker)

/-- Source `gen_cent`: classify every halo with the cumulative markers, count per
thread, size the per-tracer output buffers from the cumulative counts, and
fill them in thread order.  Note the source allocates `qso_mass` with
`np.empty(N_lrg, ...)` (all other buffers use their own tracer's total). -/
def gen_cent (P : MathPrims) (H : ℕ) (halo : ℕ → Halo)
    (LRG_design_array ELG_design_array QSO_design_array : List ℚ)
    (ic alpha_c Ac Bc : ℚ) (rsd : Bool) (inv_velz2kms lbox : ℚ)
    (want_LRG want_ELG want_QSO : Bool) (Nthread : ℕ) :
    GalDict × GalDict × GalDict :=
  let keep : ℕ → ℕ := fun i =>
    let m := gen_cent_markers P LRG_design_array ELG_design_array QSO_design_array
      ic Ac Bc want_LRG want_ELG want_QSO (halo i)
    classifyKeep (halo i).randoms m.1 m.2.1 m.2.2
  let N_lrg := totalCount H Nthread keep 1
  let N_elg := totalCount H Nthread keep 2
  let N_qso := totalCount H Nthread keep 3
  let gvx : ℕ → ℚ := fun i => (halo i).vx + alpha_c * (halo i).vdev
  let gvy : ℕ → ℚ := fun i => (halo i).vy + alpha_c * (halo i).vdev
  let gvz : ℕ → ℚ := fun i => (halo i).vz + alpha_c * (halo i).vdev
  let gz : ℕ → ℚ := fun i =>
    if rsd then wrap ((halo i).pz + gvz i * inv_velz2kms) lbox else (halo i).pz
  let col := fun (t n : ℕ) (v : ℕ → ℚ) => fillCol H Nthread keep t v n
  ({ x := col 1 N_lrg (fun i => (halo i).px), y := col 1 N_lrg (fun i => (halo i).py),
     z := col 1 N_lrg gz, vx := col 1 N_lrg gvx, vy := col 1 N_lrg gvy,
     vz := col 1 N_lrg gvz, mass := col 1 N_lrg (fun i => (halo i).mass),
     id := col 1 N_lrg (fun i => (halo i).hid) },
   { x := col 2 N_elg (fun i => (halo i).px), y := col 2 N_elg (fun i => (halo i).py),
     z := col 2 N_elg gz, vx := col 2 N_elg gvx, vy := col 2 N_elg gvy,
     vz := col 2 N_elg gvz, mass := col 2 N_elg (fun i => (halo i).mass),
     id := col 2 N_elg (fun i => (halo i).hid) },
   { x := col 3 N_qso (fun i => (halo i).px), y := col 3 N_qso (fun i => (halo i).py),
     z := col 3 N_qso gz, vx := col 3 N_qso gvx, vy := col 3 N_qso gvy,
     vz := col 3 N_qso gvz, mass := col 3 N_lrg (fun i => (halo i).mass),
     id := col 3 N_qso (fun i => (halo i).hid) })

/-- The cumulative tracer markers computed for one particle in `gen_sats`'s
classify pass, as a function of the unpacked LRG decoration scalars
`s, s_v, s_p, s_r, Ac, As, Bc, Bs, ic` (source lines unpack them from
`LRG_decorations_array[2..10]`). -/
def gen_sats_markers (P : MathPrims)
    (LRG_design_array : List ℚ) (s s_v s_p s_r Ac As Bc Bs ic : ℚ)
    (ELG_design_array QSO_design_array : List ℚ)
    (enable_ranks : Bool) (want_LRG want_ELG want_QSO : Bool) (p : Particle) :
    ℚ × ℚ × ℚ :=
  let logM_cut_L := LRG_design_array.getD 0 0
  let logM1_L := LRG_design_array.getD 1 0
  let sigma_L := LRG_design_array.getD 2 0
  let alpha_L := LRG_design_array.getD 3 0
  let kappa_L := LRG_design_array.getD 4 0
  let logM_cut_E := ELG_design_array.getD 2 0
  let kappa_E := ELG_design_array.getD 3 0
  let logM1_E := ELG_design_array.getD 5 0
  let alpha_E := ELG_design_array.getD 6 0
  let As_E := ELG_design_array.getD 8 0
  let logM_cut_Q := QSO_design_array.getD 1 0
  let kappa_Q := QSO_design_array.getD 2 0
  let logM1_Q := QSO_design_array.getD 4 0
  let alpha_Q := QSO_design_array.getD 5 0
  let As_Q := QSO_design_array.getD 6 0
  let LRG_marker : ℚ :=
    if want_LRG then
      let M1_L_temp := P.rpow 10 (logM1_L + As * p.hdeltac + Bs * p.hfenv)
      let logM_cut_L_temp := logM_cut_L + Ac * p.hdeltac + Bc * p.hfenv
      let base_p := n_sat_LRG_modified P p.hmass logM_cut_L_temp
        (P.rpow 10 logM_cut_L_temp) M1_L_temp sigma_L alpha_L kappa_L * p.weights * ic
      if enable_ranks then
        base_p * (1 + s * p.ranks + s_v * p.ranksv + s_p * p.ranksp + s_r * p.ranksr)
      else base_p
    else 0
  let ELG_marker : ℚ :=
    LRG_marker +
      (if want_ELG then
        N_sat_generic P p.hmass (P.rpow 10 logM_cut_E) kappa_E (P.rpow 10 logM1_E)
          alpha_E As_E * p.weights
      else 0)
  let QSO_marker : ℚ :=
    ELG_marker +
      (if want_QSO then
        N_sat_generic P p.hmass (P.rpow 10 logM_cut_Q) kappa_Q (P.rpow 10 logM1_Q)
          alpha_Q As_Q * p.weights
      else 0)
  (LRG_marker, ELG_marker, QSO_marker)

/-- Source `gen_sats`: same two-pass structure as `gen_cent` over the particle
array.  The LRG decoration vector is unpacked positionally from indices
1..10 (`alpha_s` = index 1, …, `ic` = index 10); index 0 is never read.
`qso_mass` is again allocated with `np.empty(N_lrg, ...)`.  `Mpart` is
accepted and unused, as in the source. -/
def gen_sats (P : MathPrims) (H : ℕ) (part : ℕ → Particle)
    (LRG_design_array LRG_decorations_array ELG_design_array QSO_design_array : List ℚ)
    (enable_ranks rsd : Bool) (inv_velz2kms lbox Mpart : ℚ)
    (want_LRG want_ELG want_QSO : Bool) (Nthread : ℕ) :
    GalDict × GalDict × GalDict :=
  let alpha_s := LRG_decorations_array.getD 1 0
  let s := LRG_decorations_array.getD 2 0
  let s_v := LRG_decorations_array.getD 3 0
  let s_p := LRG_decorations_array.getD 4 0
  let s_r := LRG_decorations_array.getD 5 0
  let Ac := LRG_decorations_array.getD 6 0
  let As := LRG_decorations_array.getD 7 0
  let Bc := LRG_decorations_array.getD 8 0
  let Bs := LRG_decorations_array.getD 9 0
  let ic := LRG_decorations_array.getD 10 0
  let keep : ℕ → ℕ := fun i =>
    let m := gen_sats_markers P LRG_design_array s s_v s_p s_r Ac As Bc Bs ic
      ELG_design_array QSO_design_array enable_ranks want_LRG want_ELG want_QSO (part i)
    classifyKeep (part i).randoms m.1 m.2.1 m.2.2
  let N_lrg := totalCount H Nthread keep 1
  let N_elg := totalCount H Nthread keep 2
  let N_qso := totalCount H Nthread keep 3
  let gvx : ℕ → ℚ := fun i => (part i).hvx + alpha_s * ((part i).pvx - (part i).hvx)
  let gvy : ℕ → ℚ := fun i => (part i).hvy + alpha_s * ((part i).pvy - (part i).hvy)
  let gvz : ℕ → ℚ := fun i => (part i).hvz + alpha_s * ((part i).pvz - (part i).hvz)
  let gz : ℕ → ℚ := fun i =>
    if rsd then wrap ((part i).pz + gvz i * inv_velz2kms) lbox else (part i).pz
  let col := fun (t n : ℕ) (v : ℕ → ℚ) => fillCol H Nthread keep t v n
  ({ x := col 1 N_lrg (fun i => (part i).px), y := col 1 N_lrg (fun i => (part i).py),
     z := col 1 N_lrg gz, vx := col 1 N_lrg gvx, vy := col 1 N_lrg gvy,
     vz := col 1 N_lrg gvz, mass := col 1 N_lrg (fun i => (part i).hmass),
     id := col 1 N_lrg (fun i => (part i).hid) },
   { x := col 2 N_elg (fun i => (part i).px), y := col 2 N_elg (fun i => (part i).py),
     z := col 2 N_elg gz, vx := col 2 N_elg gvx, vy := col 2 N_elg gvy,
     vz := col 2 N_elg gvz, mass := col 2 N_elg (fun i => (part i).hmass),
     id := col 2 N_elg (fun i => (part i).hid) },
   { x := col 3 N_qso (fun i => (part i).px), y := col 3 N_qso (fun i => (part i).py),
     z := col 3 N_qso gz, vx := col 3 N_qso gvx, vy := col 3 N_qso gvy,
     vz := col 3 N_qso gvz, mass := col 3 N_lrg (fun i => (part i).hmass),
     id := col 3 N_qso (fun i => (part i).hid) })

/-- Source `dict.get(key)` on a parameter dictionary: `None` when the key is
missing, never an error. -/
def dict_get (d : List (String × ℚ)) (k : String) : Option ℚ :=
  (d.find? (fun p => p.1 == k)).map Prod.snd

/-- Source `gen_gals`: the LRG design vector
`[logM_cut, logM1, sigma, alpha, kappa]` built with `dict.get`. -/
def LRG_design_of (LRG_HOD : List (String × ℚ)) : List (Option ℚ) :=
  [dict_get LRG_HOD ("logM_cut"), dict_get LRG_HOD ("logM1"), dict_get LRG_HOD ("sigma"),
   dict_get LRG_HOD ("alpha"), dict_get LRG_HOD ("kappa")]

/-- Source `gen_gals`: the LRG decoration vector.  The source maps the key tuple
`('alpha_c', 'alpha_c', 's', ...)`, so the second slot (`alpha_s`) is read
from the key `'alpha_c'`. -/
def LRG_decorations_of (LRG_HOD : List (String × ℚ)) : List (Option ℚ) :=
  [dict_get LRG_HOD ("alpha_c"), dict_get LRG_HOD ("alpha_c"), dict_get LRG_HOD ("s"),
   dict_get LRG_HOD ("s_v"), dict_get LRG_HOD ("s_p"), dict_get LRG_HOD ("s_r"),
   dict_get LRG_HOD ("Acent"), dict_get LRG_HOD ("Asat"), dict_get LRG_HOD ("Bcent"),
   dict_get LRG_HOD ("Bsat"), dict_get LRG_HOD ("ic")]

/-- Source `gen_gals`: the ELG design vector
`[p_max, Q, logM_cut, kappa, sigma, logM1, alpha, gamma, A_s]`. -/
def ELG_design_of (ELG_HOD : List (String × ℚ)) : List (Option ℚ) :=
  [dict_get ELG_HOD ("p_max"), dict_get ELG_HOD ("Q"), dict_get ELG_HOD ("logM_cut"),
   dict_get ELG_HOD ("kappa"), dict_get ELG_HOD ("sigma"), dict_get ELG_HOD ("logM1"),
   dict_get ELG_HOD ("alpha"), dict_get ELG_HOD ("gamma"), dict_get ELG_HOD ("A_s")]

/-- Source `gen_gals`: the QSO design vector
`[p_max, logM_cut, kappa, sigma, logM1, alpha, A_s]`. -/
def QSO_design_of (QSO_HOD : List (String × ℚ)) : List (Option ℚ) :=
  [dict_get QSO_HOD ("p_max"), dict_get QSO_HOD ("logM_cut"), dict_get QSO_HOD ("kappa"),
   dict_get QSO_HOD ("sigma"), dict_get QSO_HOD ("logM1"), dict_get QSO_HOD ("alpha"),
   dict_get QSO_HOD ("A_s")]

/-- The parameter-parsing step of the Orchestrator (`gen_gals`): the four
fixed-order vectors handed to the generators.  There is no validation and
no error path — missing keys flow through as `none`. -/
def gen_gals_design_arrays (LRG_HOD ELG_HOD QSO_HOD : List (String × ℚ)) :
    List (Option ℚ) × List (Option ℚ) × List (Option ℚ) × List (Option ℚ) :=
  (LRG_design_of LRG_HOD, LRG_decorations_of LRG_HOD,
   ELG_design_of ELG_HOD, QSO_design_of QSO_HOD)

/-- The per-thread contribution to tracer `t`'s output column. -/
def perThread (H T : ℕ) (keep : ℕ → ℕ) (t : ℕ) (val : ℕ → ℚ) (tid : ℕ) : List ℚ :=
  ((threadRange H T tid).filter (fun i => keep i == t)).map val

/-- The first `k` threads' contributions concatenated. -/
def targetJoin (H T : ℕ) (keep : ℕ → ℕ) (t : ℕ) (val : ℕ → ℚ) (k : ℕ) : List ℚ :=
  ((List.range k).map (perThread H T keep t val)).flatten

/-- The all-zero instantiation of the math primitives, used to evaluate
the kernels at concrete inputs. -/
def P0 : MathPrims :=
  ⟨fun _ => 0, fun _ => 0, fun _ => 0, fun _ => 0, fun _ => 0, fun _ => 0,
   fun _ _ => 0⟩

/-- A concrete halo: mass 1, id 7, multiplier 1, draw 1/2, everything else
zero. -/
def halo1 : Halo := ⟨0, 0, 0, 0, 0, 0, 1, 7, 1, 1 / 2, 0, 0, 0⟩

/-- The all-zero primitives with `erf` replaced by the identity, so the
argument fed to `erf` is observable. -/
def P0erfId : MathPrims :=
  { P0 with erf := fun x => x }

/-- Like `P0erfId` but with a different natural-log primitive. -/
def P0lnOne : MathPrims :=
  { P0 with erf := fun x => x, ln := fun _ => 1 }

/-- Like `P0erfId` but with a different base-10-log primitive. -/
def P0log10Five : MathPrims :=
  { P0 with erf := fun x => x, log10 := fun _ => 5 }

/-- The all-zero primitives with the float power returning 1, so the
generic satellite count evaluates to its amplitude. -/
def P1 : MathPrims :=
  { P0 with rpow := fun _ _ => 1 }

/-- A concrete particle: parent-halo mass 1, id 7, weight 1, draw 1/2,
everything else zero. -/
def particle1 : Particle :=
  ⟨0, 0, 0, 0, 0, 0, 0, 0, 0, 1, 7, 1, 1 / 2, 0, 0, 0, 0, 0, 0⟩

/-! ### Properties of `rint` and the thread boundaries -/

theorem floor_le_rint (q : ℚ) : ⌊q⌋ ≤ rint q := by
  unfold rint
  split_ifs <;> omega

theorem rint_le_floor_add_one (q : ℚ) : rint q ≤ ⌊q⌋ + 1 := by
  unfold rint
  split_ifs <;> omega

theorem rint_mono {q r : ℚ} (h : q ≤ r) : rint q ≤ rint r := by
  rcases lt_or_eq_of_le (Int.floor_le_floor h) with hf | hf
  · calc rint q ≤ ⌊q⌋ + 1 := rint_le_floor_add_one q
      _ ≤ ⌊r⌋ := by omega
      _ ≤ rint r := floor_le_rint r
  · unfold rint
    rw [hf] at *
    split_ifs <;> first | omega | (exfalso; linarith)

theorem rint_natCast (n : ℕ) : rint (n : ℚ) = n := by
  unfold rint
  rw [Int.floor_natCast]
  norm_num

theorem rint_nonneg {q : ℚ} (h : 0 ≤ q) : 0 ≤ rint q := by
  have := floor_le_rint q
  have := Int.floor_nonneg.mpr h
  omega

theorem hstartN_mono (H T : ℕ) {i j : ℕ} (h : i ≤ j) :
    hstartN H T i ≤ hstartN H T j := by
  unfold hstartN
  apply Int.toNat_le_toNat
  apply rint_mono
  rcases Nat.eq_zero_or_pos T with hT | hT
  · simp [hT]
  · have hT' : (0 : ℚ) < (T : ℚ) := by exact_mod_cast hT
    rw [div_le_div_iff_of_pos_right hT']
    have hij : (i : ℚ) ≤ (j : ℚ) := by exact_mod_cast h
    exact mul_le_mul_of_nonneg_right hij (by positivity)

theorem rint_zero : rint (0 : ℚ) = 0 := by
  simpa using rint_natCast 0

theorem hstartN_zero (H T : ℕ) : hstartN H T 0 = 0 := by
  unfold hstartN
  norm_num [rint_zero]

theorem hstartN_last (H T : ℕ) (hT : 0 < T) : hstartN H T T = H := by
  unfold hstartN
  have hT' : (T : ℚ) ≠ 0 := by exact_mod_cast hT.ne'
  rw [mul_comm, mul_div_assoc, div_self hT', mul_one, rint_natCast]
  exact Int.toNat_natCast H

/-- Consecutive half-open blocks delimited by a monotone boundary function
join to a single initial segment. -/
theorem join_blocks (b : ℕ → ℕ) (h0 : b 0 = 0) (hmono : ∀ i, b i ≤ b (i + 1)) :
    ∀ T, ((List.range T).map (fun tid => List.range' (b tid) (b (tid + 1) - b tid))).flatten
      = List.range' 0 (b T)
  | 0 => by simp [h0]
  | T + 1 => by
    rw [List.range_succ, List.map_append, List.flatten_append,
      join_blocks b h0 hmono T]
    have h := hmono T
    simp only [List.map_cons, List.map_nil, List.flatten_cons, List.flatten_nil,
      List.append_nil]
    have := List.range'_append_1 0 (b T) (b (T + 1) - b T)
    rw [Nat.zero_add] at this
    rw [this, Nat.sub_add_cancel h]

/-- The thread index ranges tile `[0, H)` exactly: their concatenation, in
thread order, is the full index list. -/
theorem threadRange_tiles (H T : ℕ) (hT : 0 < T) :
    ((List.range T).map (threadRange H T)).flatten = List.range H := by
  unfold threadRange
  rw [join_blocks (hstartN H T) (hstartN_zero H T)
    (fun i => hstartN_mono H T (Nat.le_succ i)) T]
  rw [hstartN_last H T hT, List.range_eq_range']

/-! ### The fill pass -/

theorem set_take_succ {α : Type} :
    ∀ (l : List α) (j : ℕ) (w : α), j < l.length →
      (l.set j w).take (j + 1) = l.take j ++ [w]
  | [], j, w, h => by simp at h
  | a :: l, 0, w, _ => by simp
  | a :: l, j + 1, w, h => by
    simp only [List.set_cons_succ, List.take_succ_cons]
    rw [set_take_succ l j w (by simpa using h)]
    rfl

theorem set_drop_of_lt {α : Type} :
    ∀ (l : List α) (j k : ℕ) (w : α), j < k → (l.set j w).drop k = l.drop k
  | [], _, _, _, _ => by simp
  | a :: l, 0, k + 1, w, _ => by simp
  | a :: l, j + 1, k + 1, w, h => by
    simp only [List.set_cons_succ, List.drop_succ_cons]
    exact set_drop_of_lt l j k w (by omega)

theorem writeList_eq {α : Type} :
    ∀ (ws buf : List α) (j : ℕ), j + ws.length ≤ buf.length →
      writeList buf j ws = buf.take j ++ ws ++ buf.drop (j + ws.length)
  | [], buf, j, _ => by simp [writeList]
  | w :: ws, buf, j, h => by
    have hj : j < buf.length := by simp at h; omega
    rw [writeList, writeList_eq ws (buf.set j w) (j + 1)
      (by simp only [List.length_set]; simp at h ⊢; omega)]
    rw [set_take_succ buf j w hj, set_drop_of_lt buf j (j + 1 + ws.length) w (by omega)]
    simp only [List.append_assoc, List.cons_append, List.nil_append]
    have : j + 1 + ws.length = j + (w :: ws).length := by simp; omega
    rw [this]

theorem fillScan_eq {α : Type} (keep : ℕ → ℕ) (t : ℕ) (val : ℕ → α) :
    ∀ (idxs : List ℕ) (buf : List α) (j : ℕ),
      fillScan keep t val idxs (buf, j) =
        (writeList buf j ((idxs.filter (fun i => keep i == t)).map val),
         j + idxs.countP (fun i => keep i == t))
  | [], buf, j => by simp [fillScan, writeList]
  | i :: idxs, buf, j => by
    by_cases hi : keep i == t
    · simp only [fillScan, hi, if_pos, List.filter_cons, List.countP_cons, hi,
        if_true, List.map_cons]
      rw [fillScan_eq keep t val idxs (buf.set j (val i)) (j + 1)]
      simp only [writeList]
      congr 1
      omega
    · simp only [fillScan, hi, if_neg, List.filter_cons, List.countP_cons, hi,
        Bool.false_eq_true, if_false, cond_false]
      rw [fillScan_eq keep t val idxs buf j]
      simp

theorem gstartOf_succ (H T : ℕ) (keep : ℕ → ℕ) (t k : ℕ) :
    gstartOf H T keep (k + 1) t = gstartOf H T keep k t + threadCount H T keep k t := by
  unfold gstartOf
  rw [List.range_succ, List.map_append, List.sum_append]
  simp

theorem gstartOf_mono (H T : ℕ) (keep : ℕ → ℕ) (t : ℕ) {k l : ℕ} (h : k ≤ l) :
    gstartOf H T keep k t ≤ gstartOf H T keep l t := by
  induction h with
  | refl => exact le_refl _
  | step h ih =>
      rw [gstartOf_succ]
      omega

theorem targetJoin_length (H T : ℕ) (keep : ℕ → ℕ) (t : ℕ) (val : ℕ → ℚ) (k : ℕ) :
    (targetJoin H T keep t val k).length = gstartOf H T keep k t := by
  unfold targetJoin gstartOf perThread threadCount
  rw [List.length_flatten, List.map_map]
  congr 1
  apply List.map_congr_left
  intro tid _
  simp [List.countP_eq_length_filter]

theorem targetJoin_succ (H T : ℕ) (keep : ℕ → ℕ) (t : ℕ) (val : ℕ → ℚ) (k : ℕ) :
    targetJoin H T keep t val (k + 1) =
      targetJoin H T keep t val k ++ perThread H T keep t val k := by
  unfold targetJoin
  rw [List.range_succ, List.map_append, List.flatten_append]
  simp

/-- Invariant of the fill-pass loop over threads: after `k` threads, the
buffer holds the first `k` contributions followed by untouched junk. -/
theorem fillCol_invariant (H T : ℕ) (keep : ℕ → ℕ) (t : ℕ) (val : ℕ → ℚ) :
    ∀ k, k ≤ T →
      (List.range k).foldl
        (fun buf tid =>
          (fillScan keep t val (threadRange H T tid) (buf, gstartOf H T keep tid t)).1)
        (List.replicate (totalCount H T keep t) 0) =
      targetJoin H T keep t val k ++
        List.replicate (totalCount H T keep t - gstartOf H T keep k t) 0
  | 0, _ => by simp [targetJoin, gstartOf]
  | k + 1, hk => by
    have hrec := fillCol_invariant H T keep t val k (by omega)
    rw [List.range_succ, List.foldl_append, hrec]
    simp only [List.foldl_cons, List.foldl_nil]
    rw [fillScan_eq]
    simp only
    have hcount : (perThread H T keep t val k).length = threadCount H T keep k t := by
      unfold perThread threadCount
      simp [List.countP_eq_length_filter]
    have hlenJ := targetJoin_length H T keep t val k
    have hgk : gstartOf H T keep k t ≤ totalCount H T keep t :=
      gstartOf_mono H T keep t (show k ≤ T by omega)
    have hgk1 : gstartOf H T keep (k + 1) t ≤ totalCount H T keep t :=
      gstartOf_mono H T keep t hk
    have hsucc := gstartOf_succ H T keep t k
    have hlen : gstartOf H T keep k t + (perThread H T keep t val k).length ≤
        (targetJoin H T keep t val k ++
          List.replicate (totalCount H T keep t - gstartOf H T keep k t) 0).length := by
      rw [List.length_append, List.length_replicate, hlenJ, hcount]
      omega
    have hPT : perThread H T keep t val k =
        List.map val (List.filter (fun i => keep i == t) (threadRange H T k)) := rfl
    rw [← hPT]
    rw [writeList_eq _ _ _ hlen]
    rw [List.take_left' hlenJ, hcount, targetJoin_succ]
    congr 1
    rw [← List.drop_drop, List.drop_left' hlenJ, List.drop_replicate]
    congr 1
    omega

theorem flatten_filter_map (p : ℕ → Bool) (val : ℕ → ℚ) :
    ∀ ls : List (List ℕ),
      (ls.map (fun l => (l.filter p).map val)).flatten = (ls.flatten.filter p).map val
  | [] => by simp
  | l :: ls => by
    simp only [List.map_cons, List.flatten_cons, List.filter_append, List.map_append]
    rw [flatten_filter_map p val ls]

/-- The fill pass of the partition engine writes, into a buffer sized by the
cumulative per-thread counts, exactly the kept indices' values in input
order. -/
theorem fillCol_eq_filter (H T : ℕ) (keep : ℕ → ℕ) (t : ℕ) (val : ℕ → ℚ)
    (hT : 0 < T) :
    fillCol H T keep t val (totalCount H T keep t) =
      ((List.range H).filter (fun i => keep i == t)).map val := by
  unfold fillCol
  rw [fillCol_invariant H T keep t val T (le_refl T)]
  unfold totalCount
  rw [Nat.sub_self, List.replicate_zero, List.append_nil]
  unfold targetJoin
  have : (List.range T).map (perThread H T keep t val) =
      (List.range T).map ((fun l => (l.filter (fun i => keep i == t)).map val) ∘
        threadRange H T) := rfl
  rw [this, ← List.map_map, flatten_filter_map, threadRange_tiles H T hT]

/-! ### Claim theorems -/

theorem classifyKeep_cases (d a b c : ℚ) :
    classifyKeep d a b c = 1 ∨ classifyKeep d a b c = 2 ∨
    classifyKeep d a b c = 3 ∨ classifyKeep d a b c = 0 := by
  unfold classifyKeep
  split_ifs <;> simp

/-- Claim C2: in the classify pass, each object's single draw is compared
with the cumulative markers in the fixed order LRG, LRG+ELG, LRG+ELG+QSO,
so (with LRG_marker ≤ ELG_marker) the object is LRG iff draw ≤ LRG_marker,
ELG iff LRG_marker < draw ≤ ELG_marker, QSO iff ELG_marker < draw ≤
QSO_marker, else none; every object gets exactly one label, so the four
per-label counts sum to the input length, and in the concrete scenario
LRG marker 0.4, ELG marker 0.9, draw 0.6 the object is assigned ELG. -/
theorem C2_classify_chain :
    (∀ draw Lm Em Qm : ℚ, Lm ≤ Em →
      ((classifyKeep draw Lm Em Qm = 1 ↔ draw ≤ Lm) ∧
       (classifyKeep draw Lm Em Qm = 2 ↔ Lm < draw ∧ draw ≤ Em) ∧
       (classifyKeep draw Lm Em Qm = 3 ↔ Em < draw ∧ draw ≤ Qm) ∧
       (classifyKeep draw Lm Em Qm = 0 ↔ Em < draw ∧ Qm < draw))) ∧
    (∀ objs : List (ℚ × ℚ × ℚ × ℚ),
      objs.countP (fun o => classifyKeep o.1 o.2.1 o.2.2.1 o.2.2.2 == 1) +
      objs.countP (fun o => classifyKeep o.1 o.2.1 o.2.2.1 o.2.2.2 == 2) +
      objs.countP (fun o => classifyKeep o.1 o.2.1 o.2.2.1 o.2.2.2 == 3) +
      objs.countP (fun o => classifyKeep o.1 o.2.1 o.2.2.1 o.2.2.2 == 0) =
        objs.length) ∧
    (∀ Qm : ℚ, classifyKeep 0.6 0.4 0.9 Qm = 2) := by
  refine ⟨?_, ?_, ?_⟩
  · intro draw Lm Em Qm hLE
    unfold classifyKeep
    split_ifs with h1 h2 h3 <;>
      refine ⟨?_, ?_, ?_, ?_⟩ <;>
      constructor <;>
      intro hx <;>
      first
        | rfl
        | linarith
        | (constructor <;> linarith)
        | (simp at hx)
  · intro objs
    induction objs with
    | nil => simp
    | cons o l ih =>
        simp only [List.countP_cons, List.length_cons]
        rcases classifyKeep_cases o.1 o.2.1 o.2.2.1 o.2.2.2 with h | h | h | h <;>
          simp only [h] <;> norm_num <;> omega
  · intro Qm
    norm_num [classifyKeep]

/-- Witness for C2 at a concrete input: markers 0.4 ≤ 0.9, and the draw-0.6
object is classified ELG exactly because 0.4 < 0.6 ≤ 0.9. -/
theorem C2_witness :
    (0.4 : ℚ) ≤ 0.9 ∧
    (classifyKeep 0.6 0.4 0.9 1 = 2 ↔ (0.4 : ℚ) < 0.6 ∧ (0.6 : ℚ) ≤ 0.9) :=
  ⟨by norm_num, (C2_classify_chain.1 0.6 0.4 0.9 1 (by norm_num)).2.1⟩

/-- Claim C10 counterexample: a draw exactly equal to the QSO cumulative
marker (draw 0.5, markers 0.2, 0.5, 0.5) is classified ELG, not QSO — so
"draw equals a cumulative tracer marker implies kept for that tracer" fails
as stated. -/
theorem C10_counterexample :
    classifyKeep 0.5 0.2 0.5 0.5 = 2 ∧ classifyKeep 0.5 0.2 0.5 0.5 ≠ 3 := by
  norm_num [classifyKeep]

/-- Claim C10 (amended): all comparisons of the classify chain are
inclusive (`draw <= marker`), and an object is kept for the first tracer in
the order LRG, ELG, QSO whose cumulative marker reaches its draw; in
particular a draw of 0 with a zero first marker is assigned the first
tracer. -/
theorem C10_inclusive_boundary :
    ∀ draw Lm Em Qm : ℚ,
      (draw ≤ Lm → classifyKeep draw Lm Em Qm = 1) ∧
      (Lm < draw → draw ≤ Em → classifyKeep draw Lm Em Qm = 2) ∧
      (Lm < draw → Em < draw → draw ≤ Qm → classifyKeep draw Lm Em Qm = 3) ∧
      (∀ Em' Qm' : ℚ, classifyKeep 0 0 Em' Qm' = 1) := by
  intro draw Lm Em Qm
  refine ⟨?_, ?_, ?_, ?_⟩
  · intro h
    unfold classifyKeep
    rw [if_pos h]
  · intro h1 h2
    unfold classifyKeep
    rw [if_neg (not_le.mpr h1), if_pos h2]
  · intro h1 h2 h3
    unfold classifyKeep
    rw [if_neg (not_le.mpr h1), if_neg (not_le.mpr h2), if_pos h3]
  · intro Em' Qm'
    unfold classifyKeep
    rw [if_pos (le_refl 0)]

/-- Witness for C10: the inclusive boundary at a concrete input — draw 0.6
equal to the cumulative ELG marker 0.6 (and above the LRG marker 0.4) is
kept for ELG. -/
theorem C10_witness :
    (0.4 : ℚ) < 0.6 ∧ (0.6 : ℚ) ≤ 0.6 ∧ classifyKeep 0.6 0.4 0.6 1 = 2 :=
  ⟨by norm_num, by norm_num,
   (C10_inclusive_boundary 0.6 0.4 0.6 1).2.1 (by norm_num) (by norm_num)⟩

/-- Claim C6: with IEEE comparison semantics, a cumulative marker that is
negative or NaN can never be selected by a non-negative draw: the classify
chain simply does not assign that tracer (and it is total — no error is
raised). -/
theorem C6_negative_or_nan_never_kept :
    ∀ (q : ℚ) (Lm Em Qm : FP), 0 ≤ q →
      ((Lm = FP.nan ∨ ∃ m, Lm = FP.val m ∧ m < 0) →
        classifyKeepFP (FP.val q) Lm Em Qm ≠ 1) ∧
      ((Em = FP.nan ∨ ∃ m, Em = FP.val m ∧ m < 0) →
        classifyKeepFP (FP.val q) Lm Em Qm ≠ 2) ∧
      ((Qm = FP.nan ∨ ∃ m, Qm = FP.val m ∧ m < 0) →
        classifyKeepFP (FP.val q) Lm Em Qm ≠ 3) := by
  intro q Lm Em Qm hq
  have key : ∀ M : FP, (M = FP.nan ∨ ∃ m, M = FP.val m ∧ m < 0) →
      FP.fle (FP.val q) M = false := by
    rintro M (rfl | ⟨m, rfl, hm⟩)
    · rfl
    · simp only [FP.fle, decide_eq_false_iff_not]
      linarith
  refine ⟨?_, ?_, ?_⟩ <;> intro hbad <;> have hf := key _ hbad <;>
    unfold classifyKeepFP <;> simp [hf] <;> split_ifs <;> simp_all

/-- Witness for C6: a draw of 0.5 is not kept for LRG when the LRG marker
is NaN, and not kept for ELG when the cumulative ELG marker is negative. -/
theorem C6_witness :
    (0 : ℚ) ≤ 1 / 2 ∧
    classifyKeepFP (FP.val (1 / 2)) FP.nan (FP.val 1) (FP.val 1) ≠ 1 ∧
    classifyKeepFP (FP.val (1 / 2)) (FP.val 0) (FP.val (-1)) (FP.val 1) ≠ 2 :=
  ⟨by norm_num,
   (C6_negative_or_nan_never_kept (1 / 2) FP.nan (FP.val 1) (FP.val 1)
     (by norm_num)).1 (Or.inl rfl),
   (C6_negative_or_nan_never_kept (1 / 2) (FP.val 0) (FP.val (-1)) (FP.val 1)
     (by norm_num)).2.1 (Or.inr ⟨-1, rfl, by norm_num⟩)⟩

/-- Claim C5 counterexample: `wrap` is a single-branch wrap, not a full
mod — at x = 2L (64 with L = 32) it returns 32, outside `[-16, 16)`, so
the claimed range fails for general real x. -/
theorem C5_counterexample :
    (0 : ℚ) < 32 ∧ wrap (64 : ℚ) 32 = 32 ∧ ¬(wrap (64 : ℚ) 32 < 32 / 2) := by
  norm_num [wrap]

/-- Claim C5 (amended): `wrap(x, L)` always returns a value congruent to
`x` modulo `L` (it adds `-L`, `0` or `L`), and lands in `[-L/2, L/2)`
exactly when `x ∈ [-3L/2, 3L/2)`; the boundary `wrap(L/2, L) = -L/2` and
the concrete case `wrap(20, 32) = -12` hold as claimed. -/
theorem C5_wrap_range_and_congruence {α : Type} [LinearOrderedField α]
    (x L : α) (hL : 0 < L) :
    (∃ k : ℤ, wrap x L = x - (k : α) * L) ∧
    (-(3 * L) / 2 ≤ x → x < 3 * L / 2 → -(L / 2) ≤ wrap x L ∧ wrap x L < L / 2) ∧
    wrap (L / 2) L = -(L / 2) ∧
    wrap (20 : α) 32 = -12 := by
  refine ⟨?_, ?_, ?_, ?_⟩
  · simp only [wrap]
    split_ifs
    · exact ⟨1, by push_cast; ring⟩
    · exact ⟨-1, by push_cast; ring⟩
    · exact ⟨0, by push_cast; ring⟩
  · intro h1 h2
    simp only [wrap]
    split_ifs with ha hb
    · constructor <;> linarith
    · constructor <;> linarith
    · constructor <;> linarith
  · simp only [wrap]
    rw [if_pos (le_refl (L / 2))]
    ring
  · simp only [wrap]
    norm_num

/-- Witness for C5 at a concrete input: L = 32 is positive and
`wrap(20, 32) = -12`. -/
theorem C5_witness : (0 : ℚ) < 32 ∧ wrap (20 : ℚ) 32 = -12 :=
  ⟨by norm_num, (C5_wrap_range_and_congruence (20 : ℚ) 32 (by norm_num)).2.2.2⟩

/-- Claim C3: for any input length `H` and any thread count `T ≥ 1`, the
rounded-linspace thread ranges tile `[0, H)` exactly once (their
concatenation in thread order is `[0, 1, …, H-1]` itself), and for every
classification `keep` and tracer `t` the fill pass produces, in a buffer
sized by the summed per-thread counts, exactly the values of the kept
input indices in increasing input order — a bijection between kept indices
and output slots that preserves input relative order. -/
theorem C3_partition_bijection (H T : ℕ) (hT : 0 < T) (keep : ℕ → ℕ) (t : ℕ)
    (val : ℕ → ℚ) :
    ((List.range T).map (threadRange H T)).flatten = List.range H ∧
    fillCol H T keep t val (totalCount H T keep t) =
      ((List.range H).filter (fun i => keep i == t)).map val :=
  ⟨threadRange_tiles H T hT, fillCol_eq_filter H T keep t val hT⟩

/-- Witness for C3 at a concrete input: H = 5 objects over T = 2 threads
with classification `i % 4` and values `i`. -/
theorem C3_witness :
    0 < 2 ∧
    (((List.range 2).map (threadRange 5 2)).flatten = List.range 5 ∧
      fillCol 5 2 (fun i => i % 4) 2 (fun i => (i : ℚ))
          (totalCount 5 2 (fun i => i % 4) 2) =
        ((List.range 5).filter (fun i => i % 4 == 2)).map (fun i => (i : ℚ))) :=
  ⟨by norm_num, C3_partition_bijection 5 2 (by norm_num) (fun i => i % 4) 2
    (fun i => (i : ℚ))⟩

/-- Claim C4 counterexample: with `ic = 2`, `multis = 1` and only ELG
active, the ELG contribution to the cumulative marker is the ELG central
occupation times `multis` only — it is not scaled by `ic`, contradicting
the claim that every active tracer's contribution is scaled by both. -/
theorem C4_counterexample :
    (gen_cent_markers P0 [] [1, 1, 0, 0, 1, 0, 0, 1, 0] [] 2 0 0
        false true false halo1).2.1 -
      (gen_cent_markers P0 [] [1, 1, 0, 0, 1, 0, 0, 1, 0] [] 2 0 0
        false true false halo1).1 ≠
    N_cen_ELG_v1 P0 1 1 1 0 1 1 * 2 * 1 := by
  norm_num [gen_cent_markers, N_cen_ELG_v1, phi_fun, Phi_fun, A_fun,
    Gaussian_fun, P0, halo1]

/-- Claim C4 (amended): in `gen_cent`, the LRG contribution to the
cumulative markers is the LRG central occupation — with `logM_cut` shifted
additively by `Ac * deltac + Bc * fenv` — scaled by both `ic` and
`multis`; the ELG contribution is the ELG occupation scaled by `multis`
only; the QSO contribution is the QSO occupation scaled by neither. -/
theorem C4_contribution_scaling :
    ∀ (P : MathPrims) (LRGd ELGd QSOd : List ℚ) (ic Ac Bc : ℚ)
      (wL wE wQ : Bool) (h : Halo),
      (gen_cent_markers P LRGd ELGd QSOd ic Ac Bc wL wE wQ h).1 =
        (if wL then
          n_cen_LRG P h.mass (LRGd.getD 0 0 + Ac * h.deltac + Bc * h.fenv)
            (LRGd.getD 2 0) * ic * h.multis
        else 0) ∧
      (gen_cent_markers P LRGd ELGd QSOd ic Ac Bc wL wE wQ h).2.1 -
          (gen_cent_markers P LRGd ELGd QSOd ic Ac Bc wL wE wQ h).1 =
        (if wE then
          N_cen_ELG_v1 P h.mass (ELGd.getD 0 0) (ELGd.getD 1 0) (ELGd.getD 2 0)
            (ELGd.getD 4 0) (ELGd.getD 7 0) * h.multis
        else 0) ∧
      (gen_cent_markers P LRGd ELGd QSOd ic Ac Bc wL wE wQ h).2.2 -
          (gen_cent_markers P LRGd ELGd QSOd ic Ac Bc wL wE wQ h).2.1 =
        (if wQ then
          N_cen_QSO P h.mass (QSOd.getD 0 0) (QSOd.getD 1 0) (QSOd.getD 3 0)
        else 0) := by
  intro P LRGd ELGd QSOd ic Ac Bc wL wE wQ h
  unfold gen_cent_markers
  refine ⟨rfl, by ring, by ring⟩

/-- Claim C7 counterexample: with every required key missing (empty
dictionaries), the Orchestrator's parameter parsing still succeeds and
produces the four fixed-order vectors filled with `None` — no
configuration error is raised before the generators run. -/
theorem C7_counterexample :
    gen_gals_design_arrays [] [] [] =
      (List.replicate 5 none, List.replicate 11 none, List.replicate 9 none,
       List.replicate 7 none) := rfl

/-- Claim C7 (amended): the Orchestrator performs no fail-fast validation:
for every parameter dictionary, the fixed-order vectors (lengths 5, 11, 9,
7) are produced unconditionally, each slot holding `dict.get` of its key —
`None` when the key is missing — and the `alpha_s` slot is read from the
key `'alpha_c'`. -/
theorem C7_no_validation :
    ∀ L E Q : List (String × ℚ),
      (gen_gals_design_arrays L E Q).1.length = 5 ∧
      (gen_gals_design_arrays L E Q).2.1.length = 11 ∧
      (gen_gals_design_arrays L E Q).2.2.1.length = 9 ∧
      (gen_gals_design_arrays L E Q).2.2.2.length = 7 ∧
      (gen_gals_design_arrays L E Q).1.getD 0 (some 0) = dict_get L ("logM_cut") ∧
      (gen_gals_design_arrays L E Q).2.1.getD 1 (some 0) = dict_get L ("alpha_c") :=
  fun _ _ _ => ⟨rfl, rfl, rfl, rfl, rfl, rfl⟩

/-- Claim C8: `N_cen_ELG_v1` computes its internal `logM_h` with `np.log`
— the natural-logarithm primitive — not `np.log10`.  Its value is
invariant under any change of the `log10` primitive (it depends only on
`erf`, `exp`, `sqrt` and `ln`), while changing the `ln` primitive alone
(log10 kept identical) changes the value at `M_h = 10`. -/
theorem C8_elg_v1_uses_natural_log :
    (∀ (P Pb : MathPrims) (M_h p_max Q logM_cut sigma gamma : ℚ),
      P.erf = Pb.erf → P.exp = Pb.exp → P.sqrt = Pb.sqrt → P.ln = Pb.ln →
        N_cen_ELG_v1 P M_h p_max Q logM_cut sigma gamma =
          N_cen_ELG_v1 Pb M_h p_max Q logM_cut sigma gamma) ∧
    P0erfId.log10 = P0lnOne.log10 ∧
    N_cen_ELG_v1 P0erfId 10 1 1 0 1 1 ≠ N_cen_ELG_v1 P0lnOne 10 1 1 0 1 1 := by
  refine ⟨?_, rfl, ?_⟩
  · intro P Pb M_h p_max Q logM_cut sigma gamma h1 h2 h3 h4
    simp only [N_cen_ELG_v1, phi_fun, Phi_fun, A_fun, Gaussian_fun, h1, h2, h3, h4]
  · norm_num [N_cen_ELG_v1, phi_fun, Phi_fun, A_fun, Gaussian_fun, P0erfId,
      P0lnOne, P0]

/-- Witness for C8: at `M_h = 10`, changing only the `log10` primitive
leaves the model value unchanged, while changing only the `ln` primitive
changes it. -/
theorem C8_witness :
    N_cen_ELG_v1 P0erfId 10 1 1 0 1 1 = N_cen_ELG_v1 P0log10Five 10 1 1 0 1 1 ∧
    N_cen_ELG_v1 P0erfId 10 1 1 0 1 1 ≠ N_cen_ELG_v1 P0lnOne 10 1 1 0 1 1 :=
  ⟨C8_elg_v1_uses_natural_log.1 P0erfId P0log10Five 10 1 1 0 1 1 rfl rfl rfl rfl,
   C8_elg_v1_uses_natural_log.2.2⟩

/-- Claim C9: `gen_sats` never reads slot 0 of the LRG decoration vector
(it unpacks only indices 1..10), so two runs whose decoration vectors
differ only in the head element return identical output dictionaries for
all three tracers. -/
theorem C9_decoration_slot0_unused
    (P : MathPrims) (H : ℕ) (part : ℕ → Particle)
    (LRGd : List ℚ) (a a' : ℚ) (d : List ℚ) (ELGd QSOd : List ℚ)
    (enable_ranks rsd : Bool) (inv_velz2kms lbox Mpart : ℚ)
    (wL wE wQ : Bool) (T : ℕ) :
    gen_sats P H part LRGd (a :: d) ELGd QSOd enable_ranks rsd
        inv_velz2kms lbox Mpart wL wE wQ T =
      gen_sats P H part LRGd (a' :: d) ELGd QSOd enable_ranks rsd
        inv_velz2kms lbox Mpart wL wE wQ T := by
  have h1 : (a :: d).getD 1 0 = (a' :: d).getD 1 0 := rfl
  have h2 : (a :: d).getD 2 0 = (a' :: d).getD 2 0 := rfl
  have h3 : (a :: d).getD 3 0 = (a' :: d).getD 3 0 := rfl
  have h4 : (a :: d).getD 4 0 = (a' :: d).getD 4 0 := rfl
  have h5 : (a :: d).getD 5 0 = (a' :: d).getD 5 0 := rfl
  have h6 : (a :: d).getD 6 0 = (a' :: d).getD 6 0 := rfl
  have h7 : (a :: d).getD 7 0 = (a' :: d).getD 7 0 := rfl
  have h8 : (a :: d).getD 8 0 = (a' :: d).getD 8 0 := rfl
  have h9 : (a :: d).getD 9 0 = (a' :: d).getD 9 0 := rfl
  have h10 : (a :: d).getD 10 0 = (a' :: d).getD 10 0 := rfl
  simp only [gen_sats, h1, h2, h3, h4, h5, h6, h7, h8, h9, h10]

theorem threadRange_one_one : threadRange 1 1 0 = [0] := by
  show List.range' (hstartN 1 1 0) (hstartN 1 1 1 - hstartN 1 1 0) = [0]
  rw [hstartN_zero, hstartN_last 1 1 one_pos]
  rfl

theorem totalCount_one_one (k : ℕ → ℕ) (t : ℕ) :
    totalCount 1 1 k t = if k 0 == t then 1 else 0 := by
  unfold totalCount gstartOf threadCount
  rw [show List.range 1 = [0] from rfl, List.map_singleton, List.sum_singleton,
    threadRange_one_one]
  rw [List.countP_cons, List.countP_nil]
  split_ifs with h <;> simp_all

theorem fillCol_one_one (k : ℕ → ℕ) (t : ℕ) (val : ℕ → ℚ) (n : ℕ) :
    fillCol 1 1 k t val n =
      if k 0 == t then (List.replicate n (0 : ℚ)).set 0 (val 0)
      else List.replicate n 0 := by
  unfold fillCol
  rw [show List.range 1 = [0] from rfl, List.foldl_cons, List.foldl_nil,
    threadRange_one_one]
  have hg : gstartOf 1 1 k 0 t = 0 := by
    unfold gstartOf
    simp
  rw [hg]
  unfold fillScan
  split_ifs with h <;> simp [fillScan]

/-- Claim C1: evaluation at a failing input.  One halo (resp. one
particle), only QSO requested, and the object is kept as a QSO; the QSO
`x` column has length 1 (the QSO kept count), but the QSO `mass` column
has length 0 because the source allocates it with `np.empty(N_lrg, ...)`
(`gen_cent` and `gen_sats` alike) — the claimed "every column has length
equal to its tracer's kept count" fails for the QSO mass column. -/
theorem C1_qso_mass_length_bug :
    ((gen_cent P0 1 (fun _ => halo1) [] [] [2, 0, 0, 1, 0, 0, 0] 1 0 0 0
        false 0 32 false false true 1).2.2.x.length = 1 ∧
     (gen_cent P0 1 (fun _ => halo1) [] [] [2, 0, 0, 1, 0, 0, 0] 1 0 0 0
        false 0 32 false false true 1).2.2.mass.length = 0) ∧
    ((gen_sats P1 1 (fun _ => particle1) [] [] [] [0, 0, 0, 0, 0, 0, 1]
        false false 0 32 0 false false true 1).2.2.x.length = 1 ∧
     (gen_sats P1 1 (fun _ => particle1) [] [] [] [0, 0, 0, 0, 0, 0, 1]
        false false 0 32 0 false false true 1).2.2.mass.length = 0) := by
  have hm : gen_cent_markers P0 [] [] [2, 0, 0, 1, 0, 0, 0] 1 0 0
      false false true halo1 = (0, 0, 1) := by
    norm_num [gen_cent_markers, N_cen_QSO, P0, halo1]
  have hk : classifyKeep halo1.randoms 0 0 1 = 3 := by
    norm_num [classifyKeep, halo1]
  have hms : gen_sats_markers P1 [] 0 0 0 0 0 0 0 0 0 [] [0, 0, 0, 0, 0, 0, 1]
      false false false true particle1 = (0, 0, 1) := by
    norm_num [gen_sats_markers, N_sat_generic, P1, P0, particle1]
  have hks : classifyKeep particle1.randoms 0 0 1 = 3 := by
    norm_num [classifyKeep, particle1]
  refine ⟨⟨?_, ?_⟩, ?_, ?_⟩ <;>
    simp [gen_cent, gen_sats, hm, hk, hms, hks, totalCount_one_one,
      fillCol_one_one]

end GRANDHOD
